import Mathlib

/-!
Verification of the pacing/progress computation engine and request-router
branches of the fitness-tracker Lambda (`src/lambda/app.py`).

Machine integers are modelled as `Int`/`Nat`; Python float arithmetic on the
small quantities involved is modelled exactly by `ℚ`; Python `datetime.date`
(an external collaborator of the core) is modelled by the proleptic Gregorian
calendar exactly as CPython implements it (`toordinal`, lexicographic
comparison of (year, month, day), `timedelta.days` as ordinal difference).
Fallible Python coercions (`int(...)`, `float(...)`) are modelled with
`Option`; an uncaught exception is an `Except.error`.
-/

/-- The four tracked metrics (the keys of `GOALS` / `totals`). -/
inductive Metric where
  | pushups
  | pullups
  | dips
  | plank_seconds
deriving DecidableEq

/-- `GOALS` from app.py: annual targets per metric. -/
def GOALS : Metric → ℤ
  | .plank_seconds => 1500 * 60
  | .pullups => 2000
  | .dips => 5000
  | .pushups => 15000

/-! ## Calendar model (CPython `datetime.date`) -/

/-- Gregorian leap-year test, as in CPython `datetime._is_leap`. -/
def isLeap (y : Nat) : Bool :=
  (y % 4 == 0 && y % 100 != 0) || y % 400 == 0

/-- Days before the first of month `m` within a year (`datetime._days_before_month`). -/
def daysBefore (l : Bool) (m : Nat) : Nat :=
  match m with
  | 1 => 0
  | 2 => 31
  | 3 => 59 + (if l then 1 else 0)
  | 4 => 90 + (if l then 1 else 0)
  | 5 => 120 + (if l then 1 else 0)
  | 6 => 151 + (if l then 1 else 0)
  | 7 => 181 + (if l then 1 else 0)
  | 8 => 212 + (if l then 1 else 0)
  | 9 => 243 + (if l then 1 else 0)
  | 10 => 273 + (if l then 1 else 0)
  | 11 => 304 + (if l then 1 else 0)
  | _ => 334 + (if l then 1 else 0)

/-- Length of month `m` (`datetime._days_in_month`). -/
def monthLen (l : Bool) (m : Nat) : Nat :=
  match m with
  | 2 => 28 + (if l then 1 else 0)
  | 4 => 30
  | 6 => 30
  | 9 => 30
  | 11 => 30
  | _ => 31

/-- A Python `datetime.date` value (constructor-validated, see `ValidDate`). -/
structure PyDate where
  year : Nat
  month : Nat
  day : Nat
deriving DecidableEq

/-- The invariant CPython's `date` constructor enforces. -/
def ValidDate (d : PyDate) : Prop :=
  1 ≤ d.year ∧ 1 ≤ d.month ∧ d.month ≤ 12 ∧ 1 ≤ d.day ∧
    d.day ≤ monthLen (isLeap d.year) d.month

instance (d : PyDate) : Decidable (ValidDate d) := by
  unfold ValidDate; exact inferInstance

/-- Days-before-year part of the ordinal (`datetime._days_before_year`). -/
def daysBeforeYear (y : Nat) : Nat :=
  365 * (y - 1) + (y - 1) / 4 - (y - 1) / 100 + (y - 1) / 400

/-- CPython `date.toordinal`: day number with 0001-01-01 ↦ 1. -/
def toOrdinal (d : PyDate) : Nat :=
  daysBeforeYear d.year + daysBefore (isLeap d.year) d.month + d.day

/-- Python `date.__lt__`: lexicographic on (year, month, day). -/
def dateLtB (a b : PyDate) : Bool :=
  a.year < b.year ||
    (a.year == b.year && (a.month < b.month ||
      (a.month == b.month && a.day < b.day)))

/-- Python `(a - b).days` for two dates: difference of their ordinals. -/
def daysBetween (a b : PyDate) : ℤ :=
  (toOrdinal a : ℤ) - (toOrdinal b : ℤ)

/-! ## Rounding / coercion helpers (Python numeric semantics on ℚ) -/

/-- Floor of a rational, computably (`q.num / q.den` with Euclidean `Int` division). -/
def floorQ (q : ℚ) : ℤ := q.num / q.den

/-- Ceiling of a rational, computably. -/
def ceilQ (q : ℚ) : ℤ := -floorQ (-q)

theorem floorQ_eq (q : ℚ) : floorQ q = ⌊q⌋ := Rat.floor_def.symm

theorem ceilQ_eq (q : ℚ) : ceilQ q = ⌈q⌉ := by
  rw [ceilQ, floorQ_eq, Int.floor_neg, neg_neg]

/-- Python `int(x)` on a number: truncation toward zero. -/
def truncQ (q : ℚ) : ℤ :=
  if 0 ≤ q then floorQ q else ceilQ q

/-- Python `round(x)` (no digits): round-half-to-even to an integer. -/
def pythonRound (q : ℚ) : ℤ :=
  if q - floorQ q < 1 / 2 then floorQ q
  else if (1 : ℚ) / 2 < q - floorQ q then floorQ q + 1
  else if floorQ q % 2 = 0 then floorQ q else floorQ q + 1

/-- Python `round(x, 1)`: round-half-to-even at one decimal place. -/
def round1 (q : ℚ) : ℚ :=
  (pythonRound (q * 10) : ℚ) / 10

/-! ## Core pacing functions from app.py -/

/-- `_days_in_month` from app.py: first day of the next calendar month minus
the first day of `d`'s month, via Python date subtraction. -/
def days_in_month (d : PyDate) : ℤ :=
  let first : PyDate := ⟨d.year, d.month, 1⟩
  let next_first : PyDate :=
    if first.month = 12 then ⟨first.year + 1, 1, 1⟩
    else ⟨first.year, first.month + 1, 1⟩
  daysBetween next_first first

/-- The elapsed-days computation inside `_pace_metrics`. -/
def elapsed_days (start_d today_d : PyDate) : ℤ :=
  if dateLtB today_d start_d then 1
  else daysBetween today_d start_d + 1

/-- Output of `_pace_metrics`. -/
structure PaceReport where
  elapsedDays : ℤ
  expected : Metric → ℚ
  onTrack : Metric → Bool
  remaining : Metric → ℤ

/-- `_pace_metrics` from app.py. -/
def pace_metrics (all_totals : Metric → ℤ) (start_d today_d : PyDate) : PaceReport :=
  let e := elapsed_days start_d today_d
  { elapsedDays := e
    expected := fun k => (GOALS k * e : ℤ) / (365 : ℚ)
    onTrack := fun k => decide ((all_totals k : ℚ) ≥ (GOALS k * e : ℤ) / (365 : ℚ))
    remaining := fun k => max 0 (GOALS k - all_totals k) }

/-- `_pct` from app.py. The `try/except` wrapper cannot fire on integer

inputs once `goal ≤ 0` is excluded, so it is not represented. -/
def pct (done goal : ℤ) : ℤ :=
  if goal ≤ 0 then 0
  else max 0 (min 100 (pythonRound ((done : ℚ) / (goal : ℚ) * 100)))

/-! ## Aggregation (`_sum_items`) -/

/-- A stored attribute value as seen by `int(it.get(k, 0))`:
absent, numerically coercible, or raising on coercion. -/
inductive FieldVal where
  | missing
  | num (n : ℤ)
  | nonNum
deriving DecidableEq

/-- One raw store item, as a metric-keyed attribute map. -/
def RawItem : Type := Metric → FieldVal

/-- One iteration of the inner loop of `_sum_items`:
`try: totals[k] += int(it.get(k, 0)) except: pass`. -/
def tryAdd (t : ℤ) (v : FieldVal) : ℤ :=
  match v with
  | .missing => t + 0
  | .num n => t + n
  | .nonNum => t

/-- `_sum_items` from app.py: fold the items, per metric. -/
def sum_items (items : List RawItem) : Metric → ℤ :=
  items.foldl (fun t it => fun m => tryAdd (t m) (it m)) (fun _ => 0)

/-! ## String helpers (Python `str.strip`, `int(str)`, `float(str)`,
`strptime`, string comparison).  All are implemented over `List Char` by
structural recursion so that concrete instances evaluate in the kernel. -/

/-- Split a character list at every occurrence of `sep` (Python `str.split(sep)`). -/
def splitOnCharAux (sep : Char) : List Char → List Char → List (List Char)
  | [], acc => [acc.reverse]
  | c :: rest, acc =>
    if c = sep then acc.reverse :: splitOnCharAux sep rest []
    else splitOnCharAux sep rest (c :: acc)

/-- Python `s.split(sep)` for a one-character separator. -/
def splitOnChar (sep : Char) (l : List Char) : List (List Char) :=
  splitOnCharAux sep l []

/-- Python `str.strip()` with no argument: trim surrounding whitespace. -/
def trimChars (l : List Char) : List Char :=
  ((l.dropWhile Char.isWhitespace).reverse.dropWhile Char.isWhitespace).reverse

/-- Python `str.strip()` on a `String`. -/
def pyStrip (s : String) : String := ⟨trimChars s.data⟩

/-- All characters are decimal digits (an empty list passes). -/
def digitsOnly (l : List Char) : Bool := l.all (fun c => c.isDigit)

/-- Value of one decimal digit character. -/
def digitVal (c : Char) : ℕ :=
  match c with
  | '0' => 0 | '1' => 1 | '2' => 2 | '3' => 3 | '4' => 4
  | '5' => 5 | '6' => 6 | '7' => 7 | '8' => 8 | '9' => 9
  | _ => 0

/-- Numeric value of a list of decimal digits. -/
def digitsVal (l : List Char) : ℕ := l.foldl (fun a c => a * 10 + digitVal c) 0

/-- Python string `<=`: lexicographic by code point. -/
def strLeB : List Char → List Char → Bool
  | [], _ => true
  | _ :: _, [] => false
  | c :: a, d :: b =>
    if c.toNat < d.toNat then true
    else if d.toNat < c.toNat then false
    else strLeB a b

/-- Python `int(s)` on a string: optionally signed decimal digits, surrounding
whitespace allowed; anything else raises (`none`). -/
def pyIntStr (s : String) : Option ℤ :=
  let t := trimChars s.data
  match t with
  | '+' :: u => if 0 < u.length && digitsOnly u then some (digitsVal u : ℤ) else none
  | '-' :: u => if 0 < u.length && digitsOnly u then some (-(digitsVal u : ℤ)) else none
  | u => if 0 < u.length && digitsOnly u then some (digitsVal u : ℤ) else none

/-- Python `float(s)` on a string: optionally signed decimal literal
`digits[.digits]` (either side may be empty but not both), surrounding
whitespace allowed; exponent forms, not used by this application, are
omitted.  Anything else raises (`none`). -/
def pyFloatStr (s : String) : Option ℚ :=
  let t := trimChars s.data
  let neg : Bool := t.headD ' ' = '-'
  let u := if t.headD ' ' = '-' || t.headD ' ' = '+' then t.tail else t
  let sgn : ℚ → ℚ := fun q => if neg then -q else q
  match splitOnChar '.' u with
  | [a] =>
    if 0 < a.length && digitsOnly a then some (sgn ((digitsVal a : ℕ) : ℚ))
    else none
  | [a, b] =>
    if 0 < a.length + b.length && digitsOnly a && digitsOnly b then
      some (sgn (((digitsVal a : ℕ) : ℚ) + ((digitsVal b : ℕ) : ℚ) / 10 ^ b.length))
    else none
  | _ => none

/-- `_parse_date` from app.py: `datetime.strptime(s, "%Y-%m-%d").date()`.
CPython's `%Y` here matches exactly four digits, `%m`/`%d` one or two digits,
and the resulting (year, month, day) must form a valid `date`. -/
def parseDate (s : String) : Option PyDate :=
  match splitOnChar '-' s.data with
  | [ys, ms, ds] =>
    if ys.length == 4 && digitsOnly ys &&
        0 < ms.length && ms.length ≤ 2 && digitsOnly ms &&
        0 < ds.length && ds.length ≤ 2 && digitsOnly ds then
      let y := digitsVal ys
      let m := digitsVal ms
      let d := digitsVal ds
      if 1 ≤ y && 1 ≤ m && m ≤ 12 && 1 ≤ d && d ≤ monthLen (isLeap y) m then
        some ⟨y, m, d⟩
      else none
    else none
  | _ => none

/-! ## JSON values and Python coercions used by the API branches -/

/-- A JSON scalar as found in the POST bodies. -/
inductive JVal where
  | jnum (q : ℚ)
  | jstr (s : String)
  | jbool (b : Bool)
  | jnull
deriving DecidableEq

/-- Python truthiness of a JSON scalar. -/
def pyTruthy : JVal → Bool
  | .jnum q => q != 0
  | .jstr s => s != ""
  | .jbool b => b
  | .jnull => false

/-- `payload.get(k, 0) or 0`: default an absent key to `0`, and replace any
falsy value by `0`. -/
def orZero (v : Option JVal) : JVal :=
  let x := v.getD (.jnum 0)
  if pyTruthy x then x else .jnum 0

/-- Python `int(v)`: truncate a number, parse a decimal string, map booleans
to 0/1; anything else raises (`none`). -/
def pyInt : JVal → Option ℤ
  | .jnum q => some (truncQ q)
  | .jstr s => pyIntStr s
  | .jbool b => some (if b then 1 else 0)
  | .jnull => none

/-- Python `float(v)`. -/
def pyFloat : JVal → Option ℚ
  | .jnum q => some q
  | .jstr s => pyFloatStr s
  | .jbool b => some (if b then 1 else 0)
  | .jnull => none

/-! ## Store items and router branches -/

/-- A persisted DynamoDB item for the fixed user (integer attributes, as
written by `_upsert_item`). -/
structure Item where
  date : String
  pushups : ℤ
  pullups : ℤ
  dips : ℤ
  plank_seconds : ℤ
deriving DecidableEq

/-- `_query_range`: the key-condition `between(start, end)` filter on the
string sort key (inclusive on both ends, lexicographic string order). -/
def queryRange (store : List Item) (startS endS : String) : List Item :=
  store.filter (fun it => strLeB startS.data it.date.data && strLeB it.date.data endS.data)

/-- `_get_item`: point lookup by date key. -/
def getItem (store : List Item) (d : String) : Option Item :=
  store.find? (fun it => it.date == d)

/-- `_upsert_item` / `put_item`: keyed overwrite. -/
def upsertItem (store : List Item) (it : Item) : List Item :=
  store.filter (fun x => x.date != it.date) ++ [it]

theorem strLeB_total (a b : List Char) : strLeB a b = true ∨ strLeB b a = true := by
  induction a generalizing b with
  | nil => left; rfl
  | cons c a ih =>
    cases b with
    | nil => right; rfl
    | cons d b =>
      by_cases h1 : c.toNat < d.toNat
      · left; simp [strLeB, h1]
      · by_cases h2 : d.toNat < c.toNat
        · right; simp [strLeB, h2]
        · rcases ih b with h | h
          · left; simp [strLeB, h1, h2, h]
          · right; simp [strLeB, h1, h2, h]

theorem strLeB_trans {a b c : List Char} (hab : strLeB a b = true)
    (hbc : strLeB b c = true) : strLeB a c = true := by
  induction a generalizing b c with
  | nil => rfl
  | cons x a ih =>
    cases b with
    | nil => simp [strLeB] at hab
    | cons y b =>
      cases c with
      | nil => simp [strLeB] at hbc
      | cons z c =>
        simp only [strLeB] at hab hbc ⊢
        split_ifs at hab hbc ⊢ with h1 h2 h3 h4 h5 h6 <;>
          first
          | rfl
          | omega
          | (exact ih hab hbc)

def dateLeAsc (a b : Item) : Prop := strLeB a.date.data b.date.data = true

def dateLeDesc (a b : Item) : Prop := strLeB b.date.data a.date.data = true

instance : DecidableRel dateLeAsc := fun a b => by unfold dateLeAsc; infer_instance

instance : DecidableRel dateLeDesc := fun a b => by unfold dateLeDesc; infer_instance

instance : IsTotal Item dateLeAsc := ⟨fun a b => strLeB_total a.date.data b.date.data⟩

instance : IsTrans Item dateLeAsc := ⟨fun _ _ _ hab hbc => strLeB_trans hab hbc⟩

instance : IsTotal Item dateLeDesc := ⟨fun a b => strLeB_total b.date.data a.date.data⟩

instance : IsTrans Item dateLeDesc := ⟨fun _ _ _ hab hbc => strLeB_trans hbc hab⟩

/-- `items.sort(key=lambda x: x.get("date", ""))`: stable sort, ascending. -/
def sortAsc (l : List Item) : List Item := List.insertionSort dateLeAsc l

/-- `items.sort(key=..., reverse=True)`: stable sort, descending. -/
def sortDesc (l : List Item) : List Item := List.insertionSort dateLeDesc l

/-- A JSON row as produced by the `api=get` / `api=data` branches (the CSV
rows carry the same values, with `plank_minutes` rendered via `:.1f`). -/
structure RowOut where
  date : String
  pushups : ℤ
  pullups : ℤ
  dips : ℤ
  plank_minutes : ℚ
deriving DecidableEq

/-- The JSON row built from an item: `plank_minutes = round(plank_seconds/60.0, 1)`. -/
def rowOf (it : Item) : RowOut :=
  ⟨it.date, it.pushups, it.pullups, it.dips, round1 ((it.plank_seconds : ℚ) / 60)⟩

/-- Response body of the `api=get` branch. -/
inductive GetBody where
  | err (msg : String)
  | rowNull
  | row (r : RowOut)
deriving DecidableEq

/-- The `api=get` branch of `handler` (GET). -/
def apiGet (dateParam : Option String) (store : List Item) : ℕ × GetBody :=
  let d := pyStrip (dateParam.getD "")
  if d = "" then (400, .err "date required")
  else
    match parseDate d with
    | none => (400, .err "invalid date")
    | some _ =>
      match getItem store d with
      | none => (200, .rowNull)
      | some it => (200, .row (rowOf it))

/-- The `api=data` branch of `handler` (GET): range query from the start date
to today, then sort descending by date and serialize. -/
def apiData (store : List Item) (startS todayS : String) : ℕ × List RowOut :=
  (200, (sortDesc (queryRange store startS todayS)).map rowOf)

/-- CSV header row written by the `view=csv` branch. -/
def csvHeader : List String := ["date", "pushups", "pullups", "dips", "plank_minutes"]

/-- Data rows of the `view=csv` branch: range query from the start date to
today, sorted ascending by date. -/
def csvRows (store : List Item) (startS todayS : String) : List RowOut :=
  (sortAsc (queryRange store startS todayS)).map rowOf

/-- The `view=csv` branch of `handler` (GET). -/
def csvExport (store : List Item) (startS todayS : String) :
    ℕ × List String × List RowOut :=
  (200, csvHeader, csvRows store startS todayS)

/-- Response body of the upsert/delete branches. -/
inductive ApiBody where
  | err (msg : String)
  | ok
deriving DecidableEq

/-- The parsed JSON object of a POST body (only the keys the handler reads). -/
structure Payload where
  date : Option String
  pushups : Option JVal
  pullups : Option JVal
  dips : Option JVal
  plank_minutes : Option JVal
deriving DecidableEq

/-- The `api=upsert` branch of `handler` (POST), after JSON parsing.
An uncaught coercion exception is `Except.error`. -/
def apiUpsert (p : Payload) (store : List Item) :
    Except String (ℕ × ApiBody × List Item) :=
  let d := pyStrip (p.date.getD "")
  if d = "" then .ok (400, .err "date is required", store)
  else
    match parseDate d with
    | none => .ok (400, .err "invalid date format", store)
    | some _ =>
      match pyInt (orZero p.pushups) with
      | none => .error "ValueError"
      | some pu =>
        match pyInt (orZero p.pullups) with
        | none => .error "ValueError"
        | some pl =>
          match pyInt (orZero p.dips) with
          | none => .error "ValueError"
          | some di =>
            match pyFloat (orZero p.plank_minutes) with
            | none => .error "ValueError"
            | some pm =>
              .ok (200, .ok, upsertItem store ⟨d, pu, pl, di, truncQ (pm * 60)⟩)

/-- The `api=delete` branch of `handler` (POST), after JSON parsing: no date
validation and no existence check. -/
def apiDelete (dateField : Option String) (store : List Item) :
    ℕ × ApiBody × List Item :=
  let d := pyStrip (dateField.getD "")
  if d = "" then (400, .err "date is required", store)
  else (200, .ok, store.filter (fun x => x.date != d))

/-- `get_int` from the form-POST paths of `handler`:
`try: int(float(form.get(name, ["0"])[0] or 0)) except: 0`. -/
def formGetInt (v : Option String) : ℤ :=
  let s := v.getD "0"
  if s = "" then 0
  else
    match pyFloatStr s with
    | some q => truncQ q
    | none => 0

/-- The form-POST plank parse:
`try: float(form.get("plank_minutes", ["0"])[0] or 0) except: 0.0`. -/
def formPlankMinutes (v : Option String) : ℚ :=
  let s := v.getD "0"
  if s = "" then 0
  else
    match pyFloatStr s with
    | some q => q
    | none => 0

/-! ## Calendar lemmas -/

theorem isLeap_iff (y : ℕ) :
    isLeap y = true ↔ ((y % 4 = 0 ∧ y % 100 ≠ 0) ∨ y % 400 = 0) := by
  simp [isLeap]

theorem notLeap_arith {y : ℕ} (h : isLeap y = false) :
    ¬((y % 4 = 0 ∧ y % 100 ≠ 0) ∨ y % 400 = 0) := fun hp => by
  rw [(isLeap_iff y).mpr hp] at h
  exact Bool.noConfusion h

theorem daysBeforeYear_succ_false (y : ℕ) (hy : 1 ≤ y) (h : isLeap y = false) :
    daysBeforeYear (y + 1) = daysBeforeYear y + 365 := by
  have h' := notLeap_arith h
  push_neg at h'
  simp only [daysBeforeYear, Nat.add_sub_cancel]
  omega

set_option maxHeartbeats 1000000 in
theorem daysBeforeYear_succ_true (y : ℕ) (hy : 1 ≤ y) (h : isLeap y = true) :
    daysBeforeYear (y + 1) = daysBeforeYear y + 366 := by
  have h' := (isLeap_iff y).mp h
  simp only [daysBeforeYear, Nat.add_sub_cancel]
  omega

theorem daysBeforeYear_succ_ge (y : ℕ) : daysBeforeYear y ≤ daysBeforeYear (y + 1) := by
  rcases Nat.eq_zero_or_pos y with h | h
  · subst h; simp [daysBeforeYear]
  · cases hl : isLeap y
    · rw [daysBeforeYear_succ_false y h hl]; omega
    · rw [daysBeforeYear_succ_true y h hl]; omega

theorem daysBeforeYear_mono {y y' : ℕ} (h : y ≤ y') :
    daysBeforeYear y ≤ daysBeforeYear y' := by
  induction y' with
  | zero =>
    have hz : y = 0 := Nat.le_zero.mp h
    subst hz
    exact le_refl _
  | succ n ih =>
    rcases Nat.lt_or_ge y (n + 1) with h' | h'
    · exact le_trans (ih (by omega)) (daysBeforeYear_succ_ge n)
    · have : y = n + 1 := by omega
      subst this
      exact le_refl _

/-- Within a year, the month table is increasing by the month length. -/
theorem daysBefore_step :
    ∀ l : Bool, ∀ m1, m1 ∈ Finset.Icc 1 12 → ∀ m2, m2 ∈ Finset.Icc 1 12 →
      m1 < m2 → daysBefore l m1 + monthLen l m1 ≤ daysBefore l m2 := by
  decide

/-- A valid day offset never exceeds the year length (common year). -/
theorem daysBefore_ub_false :
    ∀ m, m ∈ Finset.Icc 1 12 → daysBefore false m + monthLen false m ≤ 365 := by
  decide

/-- A valid day offset never exceeds the year length (leap year). -/
theorem daysBefore_ub_true :
    ∀ m, m ∈ Finset.Icc 1 12 → daysBefore true m + monthLen true m ≤ 366 := by
  decide

theorem daysBefore_lb : ∀ l : Bool, ∀ m, m ∈ Finset.Icc 1 12 → 0 ≤ daysBefore l m := by
  decide

/-- Python date comparison agrees with ordinal comparison on valid dates:
the strict direction. -/
theorem toOrdinal_lt {a b : PyDate} (ha : ValidDate a) (hb : ValidDate b)
    (h : dateLtB a b = true) : toOrdinal a < toOrdinal b := by
  obtain ⟨ay, am, ad⟩ := a
  obtain ⟨by', bm, bd⟩ := b
  obtain ⟨ha1, ha2, ha3, ha4, ha5⟩ := ha
  obtain ⟨hb1, hb2, hb3, hb4, hb5⟩ := hb
  simp only [dateLtB, Bool.or_eq_true, Bool.and_eq_true, decide_eq_true_eq,
    beq_iff_eq] at h
  simp only [ValidDate, toOrdinal] at *
  rcases h with hy | ⟨hy, hm | ⟨hm, hd⟩⟩
  · -- year strictly increases
    have h3 : daysBeforeYear (ay + 1) ≤ daysBeforeYear by' :=
      daysBeforeYear_mono hy
    have h4 : 0 ≤ daysBefore (isLeap by') bm :=
      daysBefore_lb (isLeap by') bm (Finset.mem_Icc.mpr ⟨hb2, hb3⟩)
    cases hl : isLeap ay
    · have h1 := daysBefore_ub_false am (Finset.mem_Icc.mpr ⟨ha2, ha3⟩)
      have h2 := daysBeforeYear_succ_false ay ha1 hl
      rw [hl] at ha5
      omega
    · have h1 := daysBefore_ub_true am (Finset.mem_Icc.mpr ⟨ha2, ha3⟩)
      have h2 := daysBeforeYear_succ_true ay ha1 hl
      rw [hl] at ha5
      omega
  · -- same year, month strictly increases
    subst hy
    have h1 : daysBefore (isLeap ay) am + monthLen (isLeap ay) am ≤
        daysBefore (isLeap ay) bm :=
      daysBefore_step (isLeap ay) am (Finset.mem_Icc.mpr ⟨ha2, ha3⟩)
        bm (Finset.mem_Icc.mpr ⟨hb2, hb3⟩) hm
    omega
  · -- same year and month, day strictly increases
    subst hy
    subst hm
    omega

/-- Python date comparison agrees with ordinal comparison on valid dates:
the non-strict direction. -/
theorem toOrdinal_le {a b : PyDate} (ha : ValidDate a) (hb : ValidDate b)
    (h : dateLtB a b = false) : toOrdinal b ≤ toOrdinal a := by
  by_cases hba : dateLtB b a = true
  · exact le_of_lt (toOrdinal_lt hb ha hba)
  · obtain ⟨ay, am, ad⟩ := a
    obtain ⟨by', bm, bd⟩ := b
    have hb' : dateLtB ⟨by', bm, bd⟩ ⟨ay, am, ad⟩ = false :=
      Bool.eq_false_iff.mpr hba
    simp only [dateLtB, Bool.or_eq_false_iff, Bool.and_eq_false_iff,
      decide_eq_false_iff_not, beq_eq_false_iff_ne, not_lt, ne_eq] at h hb'
    have hy : ay = by' := by omega
    have hm : am = bm := by omega
    have hd : ad = bd := by omega
    subst hy
    subst hm
    subst hd
    exact le_refl _

theorem days_in_month_eq (y m day : ℕ) (hy : 1 ≤ y) (hm1 : 1 ≤ m) (hm2 : m ≤ 12) :
    days_in_month ⟨y, m, day⟩ = (monthLen (isLeap y) m : ℤ) := by
  unfold days_in_month daysBetween toOrdinal
  interval_cases m <;> cases hl : isLeap y <;>
    simp [daysBefore, monthLen, hl] <;>
      first
      | omega
      | (have h2 := daysBeforeYear_succ_false y hy hl; omega)
      | (have h2 := daysBeforeYear_succ_true y hy hl; omega)

/-- C1: the elapsed-days value of the pacing calculator is 1 when today
precedes the start date, `(today - start).days + 1` otherwise, and in all
cases equals `max 1 ((today - start).days + 1)`, hence is at least 1. -/
theorem elapsed_days_spec (start_d today_d : PyDate)
    (hs : ValidDate start_d) (ht : ValidDate today_d) :
    (dateLtB today_d start_d = true → elapsed_days start_d today_d = 1) ∧
    (dateLtB today_d start_d = false →
      elapsed_days start_d today_d = daysBetween today_d start_d + 1) ∧
    elapsed_days start_d today_d = max 1 (daysBetween today_d start_d + 1) ∧
    1 ≤ elapsed_days start_d today_d := by
  have hmax : elapsed_days start_d today_d = max 1 (daysBetween today_d start_d + 1) := by
    unfold elapsed_days daysBetween
    cases h : dateLtB today_d start_d
    · have hle := toOrdinal_le ht hs h
      have h1 : (1 : ℤ) ≤ (toOrdinal today_d : ℤ) - (toOrdinal start_d : ℤ) + 1 := by
        omega
      simp only [Bool.false_eq_true, if_false]
      rw [max_eq_right h1]
    · have hlt := toOrdinal_lt ht hs h
      have h1 : (toOrdinal today_d : ℤ) - (toOrdinal start_d : ℤ) + 1 ≤ 1 := by
        omega
      simp only [if_true]
      rw [max_eq_left h1]
  refine ⟨fun h => by simp [elapsed_days, h], fun h => by simp [elapsed_days, h], hmax, ?_⟩
  rw [hmax]
  exact le_max_left _ _

/-- C1 witness: start 2026-01-01, today 2026-01-10 (valid dates). -/
theorem elapsed_days_spec_witness :
    elapsed_days ⟨2026, 1, 1⟩ ⟨2026, 1, 10⟩ =
      max 1 (daysBetween ⟨2026, 1, 10⟩ ⟨2026, 1, 1⟩ + 1) :=
  (elapsed_days_spec ⟨2026, 1, 1⟩ ⟨2026, 1, 10⟩ (by decide) (by decide)).2.2.1

/-- C6: `_days_in_month` (first of next month minus first of this month,
with December rolling over to January) returns the true month length:
31 for any date in January 2026, 28 for February 2026, 29 for February 2028,
30 for any date in April, and in general `monthLen (isLeap y) m`. -/
theorem days_in_month_spec :
    (∀ day, days_in_month ⟨2026, 1, day⟩ = 31) ∧
    (∀ day, days_in_month ⟨2026, 2, day⟩ = 28) ∧
    (∀ day, days_in_month ⟨2028, 2, day⟩ = 29) ∧
    (∀ y day, 1 ≤ y → days_in_month ⟨y, 4, day⟩ = 30) ∧
    (∀ y m day, 1 ≤ y → 1 ≤ m → m ≤ 12 →
      days_in_month ⟨y, m, day⟩ = (monthLen (isLeap y) m : ℤ)) := by
  refine
    ⟨fun day => (days_in_month_eq 2026 1 day (by norm_num) (by norm_num) (by norm_num)).trans
      (by decide),
    fun day => (days_in_month_eq 2026 2 day (by norm_num) (by norm_num) (by norm_num)).trans
      (by decide),
    fun day => (days_in_month_eq 2028 2 day (by norm_num) (by norm_num) (by norm_num)).trans
      (by decide),
    fun y day hy => ?_, fun y m day hy hm1 hm2 => days_in_month_eq y m day hy hm1 hm2⟩
  rw [days_in_month_eq y 4 day hy (by norm_num) (by norm_num)]
  norm_num [monthLen]

/-- C6 witness: June 2026 (a valid month of a valid year). -/
theorem days_in_month_spec_witness :
    days_in_month ⟨2026, 6, 15⟩ = (monthLen (isLeap 2026) 6 : ℤ) :=
  days_in_month_spec.2.2.2.2 2026 6 15 (by decide) (by decide) (by decide)
/-! ## Rounding lemmas and the `_pct` claim -/

theorem pythonRound_bounds (q : ℚ) : ⌊q⌋ ≤ pythonRound q ∧ pythonRound q ≤ ⌊q⌋ + 1 := by
  unfold pythonRound
  rw [floorQ_eq]
  constructor <;> split_ifs <;> omega

theorem pythonRound_mono {q q' : ℚ} (h : q ≤ q') : pythonRound q ≤ pythonRound q' := by
  have hf : ⌊q⌋ ≤ ⌊q'⌋ := Int.floor_mono h
  rcases lt_or_eq_of_le hf with hlt | heq
  · have h1 := (pythonRound_bounds q).2
    have h2 := (pythonRound_bounds q').1
    omega
  · have hc : ((⌊q⌋ : ℤ) : ℚ) = ((⌊q'⌋ : ℤ) : ℚ) := by exact_mod_cast heq
    have hr : q - ((⌊q⌋ : ℤ) : ℚ) ≤ q' - ((⌊q'⌋ : ℤ) : ℚ) := by
      rw [hc]
      linarith
    unfold pythonRound
    rw [floorQ_eq, floorQ_eq]
    split_ifs <;> first | omega | linarith

/-- C5: `_pct` is always clamped to [0, 100]; it is 0 whenever `goal ≤ 0`
(in particular for goal = 0); for fixed `goal > 0` it is non-decreasing in
`done` and equals `round(100*done/goal)` clamped to [0, 100]. -/
theorem pct_spec (done goal : ℤ) :
    (0 ≤ pct done goal ∧ pct done goal ≤ 100) ∧
    (goal ≤ 0 → pct done goal = 0) ∧
    (0 < goal → ∀ done' : ℤ, done ≤ done' → pct done goal ≤ pct done' goal) ∧
    (0 < goal →
      pct done goal = max 0 (min 100 (pythonRound (100 * (done : ℚ) / (goal : ℚ))))) := by
  refine ⟨?_, fun h => by simp [pct, h], fun hg done' hdd => ?_, fun hg => ?_⟩
  · unfold pct
    split_ifs
    · exact ⟨le_refl 0, by norm_num⟩
    · constructor
      · exact le_max_left 0 _
      · exact max_le (by norm_num) (min_le_left 100 _)
  · unfold pct
    rw [if_neg (not_le.mpr hg), if_neg (not_le.mpr hg)]
    have hgc : (0 : ℚ) < (goal : ℚ) := by exact_mod_cast hg
    have hdc : (done : ℚ) ≤ (done' : ℚ) := by exact_mod_cast hdd
    have harg : (done : ℚ) / (goal : ℚ) * 100 ≤ (done' : ℚ) / (goal : ℚ) * 100 := by
      gcongr
    have hpr := pythonRound_mono harg
    omega
  · unfold pct
    rw [if_neg (not_le.mpr hg)]
    have harg : (done : ℚ) / (goal : ℚ) * 100 = 100 * (done : ℚ) / (goal : ℚ) := by
      ring
    rw [harg]

/-- C5 witness: done 50, goal 200. -/
theorem pct_spec_witness :
    pct 50 200 = max 0 (min 100 (pythonRound (100 * (50 : ℚ) / (200 : ℚ)))) :=
  (pct_spec 50 200).2.2.2 (by norm_num)

/-! ## Aggregation claim (C7) -/

/-- The contribution of one attribute value to a metric total: the numeric
value when coercion succeeds, zero when the attribute is absent or raises. -/
def contribVal : FieldVal → ℤ
  | .num n => n
  | .missing => 0
  | .nonNum => 0

theorem tryAdd_eq (t : ℤ) (v : FieldVal) : tryAdd t v = t + contribVal v := by
  cases v <;> simp [tryAdd, contribVal]

theorem sum_items_foldl (items : List RawItem) (t : Metric → ℤ) (m : Metric) :
    (items.foldl (fun t it => fun m => tryAdd (t m) (it m)) t) m =
      t m + (items.map (fun it => contribVal (it m))).sum := by
  induction items generalizing t with
  | nil => simp
  | cons it rest ih =>
    rw [List.foldl_cons, ih, tryAdd_eq]
    simp only [List.map_cons, List.sum_cons]
    ring

/-- Fixture: a record whose pushups attribute raises on coercion and whose
dips attribute is absent. -/
def recBad : RawItem := fun m =>
  match m with
  | .pushups => .nonNum
  | .pullups => .num 5
  | .dips => .missing
  | .plank_seconds => .num 30

/-- Fixture: an ordinary all-numeric record. -/
def recGood : RawItem := fun m =>
  match m with
  | .pushups => .num 3
  | .pullups => .num 2
  | .dips => .num 7
  | .plank_seconds => .num 60

/-- C7: `_sum_items` is total (never raises) and returns one total per
tracked metric: on the empty sequence every total is zero; in general each
total is the sum of the per-record contributions, where a missing or
non-coercible attribute contributes zero while every other attribute of the
same and other records is still summed; concretely, a bad attribute on one
record does not disturb the other sums. -/
theorem sum_items_spec :
    (∀ m : Metric, sum_items [] m = 0) ∧
    (∀ items m, sum_items items m = (items.map (fun it => contribVal (it m))).sum) ∧
    (∀ items (it : RawItem) m,
      sum_items (it :: items) m = contribVal (it m) + sum_items items m) ∧
    (sum_items [recBad, recGood] .pushups = 3 ∧
      sum_items [recBad, recGood] .pullups = 7 ∧
      sum_items [recBad, recGood] .dips = 7 ∧
      sum_items [recBad, recGood] .plank_seconds = 90) := by
  refine ⟨fun m => rfl,
    fun items m => by simp only [sum_items]; rw [sum_items_foldl]; exact zero_add _,
    fun items it m => ?_, by decide, by decide, by decide, by decide⟩
  simp only [sum_items]
  rw [List.foldl_cons, sum_items_foldl, sum_items_foldl, tryAdd_eq]
  ring

/-! ## Pacing remaining-to-goal (C9) -/

/-- C9: for every totals value and goal, the pacing calculator's
remaining-to-goal value is `max(0, goal - totals)` per metric, hence never
negative. -/
theorem pace_remaining_spec (all_totals : Metric → ℤ) (start_d today_d : PyDate)
    (k : Metric) :
    (pace_metrics all_totals start_d today_d).remaining k =
      max 0 (GOALS k - all_totals k) ∧
    0 ≤ (pace_metrics all_totals start_d today_d).remaining k :=
  ⟨rfl, le_max_left _ _⟩

/-! ## `api=get` branch (C8) -/

/-- C8: `GET ?api=get` returns 400 when the date parameter is missing or
blank, 400 when it does not parse as `%Y-%m-%d`, and 200 with a null row
when it is well-formed but no record exists. -/
theorem api_get_spec (dp : Option String) (store : List Item) :
    (pyStrip (dp.getD "") = "" → apiGet dp store = (400, .err "date required")) ∧
    (pyStrip (dp.getD "") ≠ "" → parseDate (pyStrip (dp.getD "")) = none →
      apiGet dp store = (400, .err "invalid date")) ∧
    (∀ dt, parseDate (pyStrip (dp.getD "")) = some dt →
      getItem store (pyStrip (dp.getD "")) = none →
      apiGet dp store = (200, .rowNull)) := by
  refine ⟨fun h => by simp [apiGet, h], fun hne h => by simp [apiGet, hne, h],
    fun dt h hg => ?_⟩
  have hne : pyStrip (dp.getD "") ≠ "" := by
    intro he
    rw [he] at h
    have hnone : parseDate "" = none := by decide
    rw [hnone] at h
    exact Option.noConfusion h
  simp [apiGet, hne, h, hg]

/-- C8 witness: a request with no date parameter against an empty store. -/
theorem api_get_spec_witness : apiGet none [] = (400, GetBody.err "date required") :=
  (api_get_spec none []).1 (by decide)

/-! ## `api=delete` branch (C10) -/

/-- C10 as stated is false: a date consisting of one space is a non-empty
string, yet the handler strips it and returns 400, not 200. -/
theorem api_delete_cex :
    (" " : String) ≠ "" ∧
      apiDelete (some " ") [] = (400, ApiBody.err "date is required", []) := by
  constructor
  · decide
  · decide

/-- C10 (amended): for every POST `api=delete` whose date string is
non-empty after stripping surrounding whitespace, the handler returns 200
with an ok body and filters the key out of the store — with no date-format
validation and no existence check; by contrast `api=upsert` rejects an
unparsable non-blank date with 400. -/
theorem api_delete_spec (ds : String) (store : List Item) :
    (pyStrip ds ≠ "" →
      apiDelete (some ds) store =
        (200, .ok, store.filter (fun x => x.date != pyStrip ds))) ∧
    (∀ p : Payload, pyStrip (p.date.getD "") ≠ "" →
      parseDate (pyStrip (p.date.getD "")) = none →
      apiUpsert p store = .ok (400, .err "invalid date format", store)) := by
  constructor
  · intro h
    simp [apiDelete, h]
  · intro p hne h
    simp [apiUpsert, hne, h]

/-- C10 witness: deleting an unparsable, non-blank date from an empty store
succeeds with 200. -/
theorem api_delete_spec_witness :
    apiDelete (some "not-a-date") [] = (200, ApiBody.ok, []) :=
  ((api_delete_spec "not-a-date" []).1 (by decide)).trans (by decide)

/-! ## `api=data` / `view=csv` range selection (C2) -/

/-- C2 as stated is false: the range query's upper bound is today's date,
not a far-future sentinel.  A stored record dated after "today" but well
below the sentinel `9999-12-31` is excluded from both the `api=data` rows
and the CSV rows (here start 2026-01-01, today 2026-06-01, record
2026-07-01). -/
theorem api_data_csv_cex :
    (strLeB "2026-01-01".data "2026-07-01".data = true ∧
      strLeB "2026-07-01".data "9999-12-31".data = true) ∧
    (apiData [⟨"2026-07-01", 1, 1, 1, 60⟩] "2026-01-01" "2026-06-01").2 = [] ∧
    csvRows [⟨"2026-07-01", 1, 1, 1, 60⟩] "2026-01-01" "2026-06-01" = [] := by
  refine ⟨⟨?_, ?_⟩, ?_, ?_⟩ <;> decide

/-- C2 (amended): both listings return exactly the records whose date lies
between the start date and today's date (inclusive, lexicographic string
comparison as in the DynamoDB key condition), and the CSV rows are in
ascending date order. -/
theorem api_data_csv_spec (store : List Item) (startS todayS : String) :
    ((apiData store startS todayS).1 = 200) ∧
    (∀ r : RowOut, r ∈ (apiData store startS todayS).2 ↔
      ∃ it ∈ store, (strLeB startS.data it.date.data = true ∧
        strLeB it.date.data todayS.data = true) ∧ r = rowOf it) ∧
    (∀ r : RowOut, r ∈ csvRows store startS todayS ↔
      ∃ it ∈ store, (strLeB startS.data it.date.data = true ∧
        strLeB it.date.data todayS.data = true) ∧ r = rowOf it) ∧
    List.Pairwise (fun a b : RowOut => strLeB a.date.data b.date.data = true)
      (csvRows store startS todayS) := by
  refine ⟨rfl, fun r => ?_, fun r => ?_, ?_⟩
  · have hperm :=
      ((List.perm_insertionSort dateLeDesc (queryRange store startS todayS)).map rowOf).mem_iff
        (a := r)
    rw [apiData]
    simp only [sortDesc]
    rw [hperm]
    simp only [queryRange, List.mem_map, List.mem_filter, Bool.and_eq_true]
    constructor
    · rintro ⟨it, ⟨hmem, hc1, hc2⟩, heq⟩
      exact ⟨it, hmem, ⟨hc1, hc2⟩, heq.symm⟩
    · rintro ⟨it, hmem, ⟨hc1, hc2⟩, heq⟩
      exact ⟨it, ⟨hmem, hc1, hc2⟩, heq.symm⟩
  · have hperm :=
      ((List.perm_insertionSort dateLeAsc (queryRange store startS todayS)).map rowOf).mem_iff
        (a := r)
    rw [csvRows]
    simp only [sortAsc]
    rw [hperm]
    simp only [queryRange, List.mem_map, List.mem_filter, Bool.and_eq_true]
    constructor
    · rintro ⟨it, ⟨hmem, hc1, hc2⟩, heq⟩
      exact ⟨it, hmem, ⟨hc1, hc2⟩, heq.symm⟩
    · rintro ⟨it, hmem, ⟨hc1, hc2⟩, heq⟩
      exact ⟨it, ⟨hmem, hc1, hc2⟩, heq.symm⟩
  · have hs := List.sorted_insertionSort dateLeAsc (queryRange store startS todayS)
    rw [csvRows, sortAsc, List.pairwise_map]
    exact hs

/-! ## Numeric coercion policy (C3) -/

/-- C3 as stated is false for the JSON `api=upsert` branch: a pushups value
of `"abc"` fails `int()` coercion and the request raises instead of
degrading to zero. -/
theorem upsert_coercion_cex :
    apiUpsert ⟨some "2026-01-05", some (.jstr "abc"), none, none, none⟩ [] =
      .error "ValueError" := by
  norm_num +decide [apiUpsert, pyStrip, trimChars, parseDate, splitOnChar,
    splitOnCharAux, digitsOnly, digitsVal, digitVal, orZero, pyTruthy, pyInt,
    pyIntStr, monthLen, isLeap]

/-- C3 (amended): the tolerant degrade-to-zero policy holds for the
form-encoded paths (`get_int` and the plank-minutes parse return 0 whenever
`float()` fails), but in the JSON `api=upsert` branch a field value that
fails numeric coercion raises an uncaught exception and the request fails;
only falsy values degrade to zero there. -/
theorem coercion_policy_spec :
    (∀ s : String, pyFloatStr s = none → formGetInt (some s) = 0) ∧
    (∀ s : String, pyFloatStr s = none → formPlankMinutes (some s) = 0) ∧
    (∀ (p : Payload) (st : List Item), pyInt (orZero p.pushups) = none →
      pyStrip (p.date.getD "") ≠ "" →
      parseDate (pyStrip (p.date.getD "")) ≠ none →
      apiUpsert p st = .error "ValueError") := by
  refine ⟨fun s h => ?_, fun s h => ?_, fun p st h hne hpd => ?_⟩
  · by_cases hs : s = "" <;> simp [formGetInt, hs, h]
  · by_cases hs : s = "" <;> simp [formPlankMinutes, hs, h]
  · cases hp : parseDate (pyStrip (p.date.getD "")) with
    | none => exact absurd hp hpd
    | some dt => simp [apiUpsert, hne, hp, h]

/-- C3 witness: `float("abc")` fails, and the form-path coercion returns 0. -/
theorem coercion_policy_spec_witness : formGetInt (some "abc") = 0 :=
  coercion_policy_spec.1 "abc" (by decide)

/-! ## Upsert/fetch round trip (C4) -/

/-- C4: upserting (pushups 10, pullups 5, dips 3, plank_minutes 2.0) stores
plank_seconds = 120 and fetching that date returns plank_minutes = 2.0; in
general the write path truncates `int(minutes*60)` — so the stored seconds
value is within one second below the exact product — and the read path
returns `round(plank_seconds/60, 1)`. -/
theorem upsert_roundtrip_spec :
    (apiUpsert ⟨some "2026-01-05", some (.jnum 10), some (.jnum 5), some (.jnum 3),
        some (.jnum 2)⟩ [] =
      .ok (200, .ok, [⟨"2026-01-05", 10, 5, 3, 120⟩])) ∧
    (apiGet (some "2026-01-05") [⟨"2026-01-05", 10, 5, 3, 120⟩] =
      (200, .row ⟨"2026-01-05", 10, 5, 3, 2⟩)) ∧
    (∀ it : Item, (rowOf it).plank_minutes = round1 ((it.plank_seconds : ℚ) / 60)) ∧
    (∀ pm : ℚ, 0 ≤ pm →
      (truncQ (pm * 60) : ℚ) ≤ pm * 60 ∧ pm * 60 - 1 < (truncQ (pm * 60) : ℚ)) := by
  refine ⟨?_, ?_, fun it => rfl, fun pm h => ?_⟩
  · norm_num +decide [apiUpsert, pyStrip, trimChars, parseDate, splitOnChar,
      splitOnCharAux, digitsOnly, digitsVal, digitVal, orZero, pyTruthy, pyInt,
      pyFloat, truncQ, floorQ, upsertItem, monthLen, isLeap]
  · norm_num +decide [apiGet, pyStrip, trimChars, parseDate, splitOnChar,
      splitOnCharAux, digitsOnly, digitsVal, digitVal, getItem, rowOf, round1,
      pythonRound, floorQ, monthLen, isLeap]
  · have h60 : (0 : ℚ) ≤ pm * 60 := mul_nonneg h (by norm_num)
    rw [truncQ, if_pos h60, floorQ_eq]
    exact ⟨Int.floor_le _, by linarith [Int.sub_one_lt_floor (pm * 60)]⟩

/-- C4 witness: 2.0 minutes stores as exactly 120 seconds (within one second
below the product, and not above it). -/
theorem upsert_roundtrip_spec_witness :
    (truncQ ((2 : ℚ) * 60) : ℚ) ≤ (2 : ℚ) * 60 ∧
      (2 : ℚ) * 60 - 1 < (truncQ ((2 : ℚ) * 60) : ℚ) :=
  upsert_roundtrip_spec.2.2.2 2 (by norm_num)

example : elapsed_days ⟨2026, 1, 1⟩ ⟨2026, 1, 10⟩ = 10 := by decide
example : elapsed_days ⟨2026, 1, 1⟩ ⟨2025, 12, 31⟩ = 1 := by decide
example : pct 50 200 = 25 := by norm_num [pct, pythonRound, floorQ]
example : pct 7 0 = 0 := by norm_num [pct]
example : pythonRound (1 / 2) = 0 := by norm_num [pythonRound, floorQ]
example : pythonRound (3 / 2) = 2 := by norm_num [pythonRound, floorQ]
example : round1 (1999 / 1000) = 2 := by norm_num [round1, pythonRound, floorQ]
example : truncQ (-3 / 2) = -1 := by norm_num [truncQ, ceilQ, floorQ]
